import Mathlib

/-!
Verification of the graph-synchronization core of the Element plugin host.

The development shallowly embeds the two source files of the repository:

* `PortCount` (per-type input/output channel counts and its expansion into a
  flat, globally indexed port list), and
* `GraphController` (the control-plane orchestrator keeping a persisted
  node/arc model in lockstep with the live `GraphProcessor`).

`GraphProcessor`, `PluginManager` and the `PortType` slug/name tables are not
part of the source tree; where an operation of theirs decides a property they
are modelled from the specification (each such definition carries a
`Modelled from the spec:` note).  Machine integers are embedded as `Nat` with
an explicit `% 2 ^ 32` where 32-bit wraparound matters.
-/

namespace Element

/-- One addressable port of a node, as pushed by `kv::PortList::add` in
`PortCount::getPorts`: port type, global index, per-type channel index,
symbolic name, display name, direction. -/
structure Port where
  type : Nat
  index : Nat
  channel : Nat
  symbol : String
  pname : String
  isInput : Bool
  deriving DecidableEq, Repr

/-- `PortCount` from the source: one input count and one output count per
`PortType` (the C arrays `int inputs[PortType::Unknown]` /
`int outputs[PortType::Unknown]` are embedded as lists of length
`PortType::Unknown`; the number of port types and the slug/name tables of
`PortType` are parameters of the functions below since `PortType` is not in
the source tree). -/
structure PortCount where
  inputs : List Int
  outputs : List Int
  deriving DecidableEq, Repr

namespace PortCount

/-- `PortCount::get`: `isInput ? inputs[type.id()] : outputs[type.id()]`. -/
def get (pc : PortCount) (t : Nat) (isInput : Bool) : Int :=
  if isInput then pc.inputs.getD t 0 else pc.outputs.getD t 0

/-- `PortCount::set (type, count, input)`: writes one slot of one array. -/
def set (pc : PortCount) (t : Nat) (count : Int) (input : Bool) : PortCount :=
  if input then { pc with inputs := pc.inputs.set t count }
  else { pc with outputs := pc.outputs.set t count }

/-- `PortCount::with (type, count, isInput)`: copies the record and sets one
slot of the copy (`auto ret = *this; ret.set (type, count, isInput)`).  The
original is not written to, which the pure embedding renders by returning a
new record. -/
def withCount (pc : PortCount) (t : Nat) (count : Int) (isInput : Bool) : PortCount :=
  PortCount.set pc t count isInput

/-- `PortCount::operator==`: loops `i` over `0 ..< PortType::Unknown` and
fails on the first differing input or output slot. -/
def beq (numTypes : Nat) (pc other : PortCount) : Bool :=
  (List.range numTypes).all fun i =>
    pc.inputs.getD i 0 == other.inputs.getD i 0
      && pc.outputs.getD i 0 == other.outputs.getD i 0

/-- `PortCount::getPorts`: iterates the port types in enumeration order with
a running global `index`; for each type emits all inputs, then all outputs,
building `<slug>_in_<j+1>` / `<Name> In <j+1>` style names.  `slug` and
`tname` stand for `PortType::getSlug` / `PortType::getName`, which are not in
the source tree. -/
def getPorts (numTypes : Nat) (slug tname : Nat → String) (pc : PortCount) : List Port :=
  ((List.range numTypes).foldl
    (fun (acc : List Port × Nat) i =>
      let acc1 := (List.range (pc.inputs.getD i 0).toNat).foldl
        (fun (a : List Port × Nat) j =>
          (a.1 ++ [⟨i, a.2, j, slug i ++ "_in_" ++ toString (j + 1),
                    tname i ++ " In " ++ toString (j + 1), true⟩], a.2 + 1))
        acc
      (List.range (pc.outputs.getD i 0).toNat).foldl
        (fun (a : List Port × Nat) j =>
          (a.1 ++ [⟨i, a.2, j, slug i ++ "_out_" ++ toString (j + 1),
                    tname i ++ " Out " ++ toString (j + 1), false⟩], a.2 + 1))
        acc1)
    ([], 0)).1

end PortCount

/-- Modelled from the spec: the invalid-ID sentinel (`KV_INVALID_NODE`) is not
defined in the source tree; its numeric value is taken as `0`, consistent with
controller-allocated IDs starting at `1` (`getNextUID` pre-increments a
counter initialised to `0`). -/
def KV_INVALID_NODE : Nat := 0

/-- Modelled from the spec: one instantiated plugin (the object produced by
the `PluginManager` collaborator).  It carries the node's current binary
state blob and its flat port list (derived from its `PortCount`). -/
structure PluginInstance where
  stateBytes : List Nat
  ports : List Port
  deriving DecidableEq, Repr

/-- Modelled from the spec: a plugin description, opaque to this core except
that the external factory either produces an instance from it or fails.  The
`instantiable` flag abstracts the factory outcome; `initialState` and
`instPorts` are the instance the factory would produce. -/
structure PluginDescription where
  instantiable : Bool
  initialState : List Nat
  instPorts : List Port
  deriving DecidableEq, Repr

/-- Modelled from the spec: `PluginManager::createAudioPlugin` — the external
plugin factory: `instantiate(description) -> (instance | error)`. -/
def createAudioPlugin (d : PluginDescription) : Option PluginInstance :=
  if d.instantiable then some ⟨d.initialState, d.instPorts⟩ else none

/-- A graph node: stable integer identity, exclusively owned plugin instance,
`x`/`y` layout properties from its property bag, and the port list derived
from the instance. -/
structure GraphNode where
  nodeId : Nat
  inst : Option PluginInstance
  ports : List Port
  x : Int
  y : Int
  deriving DecidableEq, Repr

/-- A connection (arc): `(sourceNode, sourcePort, destNode, destPort)`.  The
same shape serves as the persisted arc entry (`Tags::sourceNode` etc.). -/
structure Connection where
  sourceNode : Nat
  sourcePort : Nat
  destNode : Nat
  destPort : Nat
  deriving DecidableEq, Repr

/-- Modelled from the spec: the `GraphProcessor` state — it owns the nodes
(keyed by ID) and the ordered connection list.  The processor itself is not
in the source tree. -/
structure GraphProcessor where
  nodes : List GraphNode
  connections : List Connection
  deriving DecidableEq, Repr

namespace GraphProcessor

/-- Modelled from the spec: `GraphProcessor::getNodeForId` — lookup by ID,
empty result when absent. -/
def getNodeForId (p : GraphProcessor) (uid : Nat) : Option GraphNode :=
  p.nodes.find? fun n => n.nodeId == uid

/-- Modelled from the spec: `GraphProcessor::addNode` — wraps the instance in
a new `GraphNode` and registers it under `requestedId`.  The processor does
not allocate IDs itself (a sentinel `requestedId` is the controller failing
its allocation duty) and a duplicate ID is a contract violation; both are
rendered as a null result, which the controller's `addFilter` treats as a
creation failure. -/
def addNode (p : GraphProcessor) (inst : PluginInstance) (requestedId : Nat) :
    Option (GraphNode × GraphProcessor) :=
  if requestedId = KV_INVALID_NODE then none
  else if p.nodes.any (fun n => n.nodeId == requestedId) then none
  else
    let node : GraphNode := ⟨requestedId, some inst, inst.ports, 0, 0⟩
    some (node, { p with nodes := p.nodes ++ [node] })

/-- Replaces the stored node carrying `n.nodeId` by `n`.  The C++ code
mutates the shared `GraphNode` object in place (e.g. `node->properties.set`);
the value embedding renders that mutation by updating the processor's copy. -/
def updateNode (p : GraphProcessor) (n : GraphNode) : GraphProcessor :=
  { p with nodes := p.nodes.map fun m => if m.nodeId == n.nodeId then n else m }

/-- Modelled from the spec: `GraphProcessor::removeNode` — removes every
connection referencing the node, then erases the node; `false` when the ID
was not present (no-op). -/
def removeNode (p : GraphProcessor) (uid : Nat) : Bool × GraphProcessor :=
  if p.nodes.any (fun n => n.nodeId == uid) then
    (true,
      { nodes := p.nodes.filter fun n => n.nodeId != uid,
        connections := p.connections.filter
          fun c => c.sourceNode != uid && c.destNode != uid })
  else (false, p)

/-- Looks up a port of a node by its global port index. -/
def findPort (n : GraphNode) (idx : Nat) : Option Port :=
  n.ports.find? fun q => q.index == idx

/-- Modelled from the spec: reachability from `a` to `b` along existing
connections, fuelled by the node count — the cycle check of `canConnect`
("a cycle reachable from the destination back to the source via existing
connections"). -/
def reachable (p : GraphProcessor) : Nat → Nat → Nat → Bool
  | 0, a, b => a == b
  | fuel + 1, a, b =>
    a == b
      || (p.connections.filter fun c => c.sourceNode == a).any
          fun c => reachable p fuel c.destNode b

/-- Modelled from the spec: `GraphProcessor::canConnect` — true only if both
nodes exist, the source port exists and is output-capable, the destination
port exists and is input-capable, the port types match, the exact tuple is
not already present, and no cycle would be created. -/
def canConnect (p : GraphProcessor) (srcId srcPort dstId dstPort : Nat) : Bool :=
  match p.getNodeForId srcId, p.getNodeForId dstId with
  | some sn, some dn =>
    match findPort sn srcPort, findPort dn dstPort with
    | some op, some ip =>
      !op.isInput && ip.isInput && (op.type == ip.type)
        && !(p.connections.any fun c =>
              c == Connection.mk srcId srcPort dstId dstPort)
        && !(reachable p p.nodes.length dstId srcId)
    | _, _ => false
  | _, _ => false

/-- Modelled from the spec: `GraphProcessor::addConnection` — re-validates
with `canConnect`; on success inserts the tuple into the connection list and
returns `true`; no partial state on failure. -/
def addConnection (p : GraphProcessor) (srcId srcPort dstId dstPort : Nat) :
    Bool × GraphProcessor :=
  if p.canConnect srcId srcPort dstId dstPort then
    (true, { p with connections :=
      p.connections ++ [⟨srcId, srcPort, dstId, dstPort⟩] })
  else (false, p)

/-- Modelled from the spec: `GraphProcessor::clear` — removes every node and
connection. -/
def clear (_p : GraphProcessor) : GraphProcessor := ⟨[], []⟩

end GraphProcessor

/-- One entry of the persisted model's "nodes" collection: the node ID, the
plugin-description fields used to re-instantiate on load, the optional
text-encoded `state` property, and the `Tags::object` property (the live
`GraphNode`, embedded by value). -/
structure NodeEntry where
  id : Nat
  desc : PluginDescription
  stateProp : Option String
  obj : Option GraphNode
  deriving DecidableEq, Repr

/-- The `GraphController` state: the `lastUID` counter, the referenced
`GraphProcessor`, the persisted model's "nodes" and "arcs" collections, a
count of published "graph changed" notifications (`changed()` /
`ChangeBroadcaster`), and a count of user-facing error reports
(`AlertWindow::showMessageBox`, the external notifier). -/
structure ControllerState where
  lastUID : Nat
  processor : GraphProcessor
  nodes : List NodeEntry
  arcs : List Connection
  changes : Nat
  alerts : Nat
  deriving DecidableEq, Repr

namespace GraphController

/-- A freshly constructed controller over an empty graph: the constructor
initialises `lastUID (0)`; the model trees are empty. -/
def initController : ControllerState :=
  { lastUID := 0, processor := ⟨[], []⟩, nodes := [], arcs := [],
    changes := 0, alerts := 0 }

/-- The modulus of the `uint32 lastUID` counter. -/
def U32 : Nat := 2 ^ 32

/-- `GraphController::getNextUID`: `return ++lastUID;` on a `uint32`
counter (pre-increment, wrapping modulo `2^32`). -/
def getNextUID (s : ControllerState) : Nat × ControllerState :=
  let v := (s.lastUID + 1) % U32
  (v, { s with lastUID := v })

/-- The values observed by `k` successive `getNextUID` calls starting from
state `s`, in call order. -/
def callUIDs (s : ControllerState) : Nat → List Nat
  | 0 => []
  | k + 1 =>
    let r := getNextUID s
    r.1 :: callUIDs r.2 k

/-- `GraphController::createFilter`: asks the plugin factory for an instance
of `desc` and, on success, registers it with the processor under `nodeId`;
a null instance (or a processor contract violation) yields a null node.  The
processor reference is threaded explicitly; `x`/`y` are accepted and unused,
as in the source. -/
def createFilter (proc : GraphProcessor) (d : PluginDescription)
    (_x _y : Int) (nodeId : Nat) : Option (GraphNode × GraphProcessor) :=
  match createAudioPlugin d with
  | some inst => proc.addNode inst nodeId
  | none => none

/-- `GraphController::addFilter`: a null description fails immediately with a
user-facing alert and the invalid sentinel.  On creation success the returned
ID is re-read from the created node (`nodeId = node->nodeId`), the `x`/`y`
properties are set on the node, a copy of the node's metadata (carrying the
ID and description) is appended to the "nodes" collection with the live
object attached, and `changed()` is published.  On creation failure an alert
is shown and the sentinel returned, with no mutation. -/
def addFilter (s : ControllerState) (desc : Option PluginDescription)
    (x y : Int) (nodeId : Nat) : Nat × ControllerState :=
  match desc with
  | none => (KV_INVALID_NODE, { s with alerts := s.alerts + 1 })
  | some d =>
    match createFilter s.processor d x y nodeId with
    | some (node, proc) =>
      let node := { node with x := x, y := y }
      let proc := proc.updateNode node
      let entry : NodeEntry := ⟨node.nodeId, d, none, some node⟩
      (node.nodeId,
        { s with processor := proc, nodes := s.nodes ++ [entry],
                 changes := s.changes + 1 })
    | none => (KV_INVALID_NODE, { s with alerts := s.alerts + 1 })

/-- The removal loop of `GraphController::removeFilter`: `i` walks the
"nodes" collection by index (the bound re-read each iteration) and
`removeChild` erases any child whose ID matches; `i` still advances after a
removal, so the element sliding into the freed position is not examined —
embedded faithfully via `List.eraseIdx`. -/
def removeNodeEntries (uid : Nat) (i : Nat) (ns : List NodeEntry) : List NodeEntry :=
  if h : i < ns.length then
    if (ns.get ⟨i, h⟩).id == uid then
      removeNodeEntries uid (i + 1) (ns.eraseIdx i)
    else
      removeNodeEntries uid (i + 1) ns
  else ns
termination_by ns.length - i
decreasing_by
  · have := List.length_eraseIdx_add_one h
    omega
  · omega

/-- `GraphController::processorArcsChanged`: rebuilds a fresh "arcs"
collection with one entry per live processor connection (`Node::makeArc`),
swaps it in at the old position, and publishes `changed()`. -/
def processorArcsChanged (s : ControllerState) : ControllerState :=
  { s with arcs := s.processor.connections, changes := s.changes + 1 }

/-- `GraphController::removeFilter`: if the processor reports the node absent
the call returns immediately; otherwise the matching entries are removed from
the "nodes" collection and the arcs are resynced from the processor.  The
C++ function returns `void`; the `Bool` component surfaces the
`processor.removeNode` result the code branches on, so that absence is
observable in the embedding. -/
def removeFilter (s : ControllerState) (uid : Nat) : Bool × ControllerState :=
  match s.processor.removeNode uid with
  | (false, _) => (false, s)
  | (true, proc) =>
    let s1 := { s with processor := proc,
                       nodes := removeNodeEntries uid 0 s.nodes }
    (true, processorArcsChanged s1)

/-- `GraphController::clear`: clears the processor, empties the model's
"nodes" and "arcs" collections (keeping the containers), and publishes
`changed()`. -/
def clear (s : ControllerState) : ControllerState :=
  { s with processor := s.processor.clear, nodes := [], arcs := [],
           changes := s.changes + 1 }

/-- The persisted graph handed to `setNodeModel`: its "nodes" and "arcs"
sub-trees. -/
structure PersistedGraph where
  nodes : List NodeEntry
  arcs : List Connection
  deriving DecidableEq, Repr

/-- The state-restoration step of `setNodeModel`'s node pass: the stored
`state` property (an empty string when absent) is decoded
(`MemoryBlock::fromBase64Encoding`, embedded as the `decode` parameter) and,
on success, pushed into the new instance via `setStateInformation`; a decode
failure leaves the instance at its default state. -/
def restoreState (decode : String → Option (List Nat)) (e : NodeEntry)
    (obj : GraphNode) : GraphNode :=
  match decode (e.stateProp.getD "") with
  | some bytes => { obj with inst := obj.inst.map fun i => { i with stateBytes := bytes } }
  | none => obj

/-- `GraphController::setNodeModel`: clears controller and processor, adopts
the supplied graph's "nodes"/"arcs" trees, re-creates every node entry via
`createFilter` under its stored ID (restoring decoded state and attaching the
live object), prunes the entries whose creation failed, then re-applies every
persisted arc tuple through `processor.addConnection`, and finally resyncs
the "arcs" collection from the processor. -/
def setNodeModel (decode : String → Option (List Nat)) (s : ControllerState)
    (g : PersistedGraph) : ControllerState :=
  let s1 := clear s
  let pass1 := g.nodes.foldl
    (fun (acc : GraphProcessor × List NodeEntry) e =>
      match createFilter acc.1 e.desc 0 0 e.id with
      | some (obj, proc) =>
        let obj := restoreState decode e obj
        let proc := proc.updateNode obj
        (proc, acc.2 ++ [{ e with obj := some obj }])
      | none => (acc.1, acc.2))
    (s1.processor, [])
  let proc2 := g.arcs.foldl
    (fun pr a => (pr.addConnection a.sourceNode a.sourcePort a.destNode a.destPort).2)
    pass1.1
  processorArcsChanged
    { s1 with processor := proc2, nodes := pass1.2, arcs := g.arcs }

/-- The state pulled for one model entry by `savePluginStates`: the current
plugin state of the entry's live object, or the empty block when the entry
has no live object or no audio processor. -/
def pulledState (e : NodeEntry) : List Nat :=
  match e.obj with
  | some o =>
    match o.inst with
    | some i => i.stateBytes
    | none => []
  | none => []

/-- `GraphController::savePluginStates`: for every entry of the "nodes"
collection, pulls the live node's current state and — only when non-empty —
writes its text encoding (`MemoryBlock::toBase64Encoding`, embedded as the
`encode` parameter) into the entry's `state` property; an empty pull leaves
the entry untouched. -/
def savePluginStates (encode : List Nat → String) (s : ControllerState) :
    ControllerState :=
  { s with nodes := s.nodes.map fun e =>
      let st := pulledState e
      if st.length > 0 then { e with stateProp := some (encode st) } else e }

/-- One controller call of the `addFilter`/`removeFilter` fragment. -/
inductive GCOp where
  | addF : Option PluginDescription → Int → Int → Nat → GCOp
  | removeF : Nat → GCOp

/-- Applies one call to the controller state. -/
def applyOp (s : ControllerState) : GCOp → ControllerState
  | GCOp.addF d x y nid => (addFilter s d x y nid).2
  | GCOp.removeF uid => (removeFilter s uid).2

/-- Executes a sequence of `addFilter`/`removeFilter` calls. -/
def runOps (s : ControllerState) : List GCOp → ControllerState
  | [] => s
  | op :: rest => runOps (applyOp s op) rest

end GraphController

section PortCountLemmas

lemma getD_set_self (l : List Int) (i : Nat) (a : Int) (h : i < l.length) :
    (l.set i a).getD i 0 = a := by
  simp [List.getD_eq_getElem?_getD, List.getElem?_set_self, h]

lemma getD_set_ne (l : List Int) (i j : Nat) (a : Int) (h : j ≠ i) :
    (l.set i a).getD j 0 = l.getD j 0 := by
  simp [List.getD_eq_getElem?_getD, List.getElem?_set_ne (Ne.symm h)]

lemma portcount_ext (numTypes : Nat) (pc other : PortCount)
    (h1 : pc.inputs.length = numTypes) (h2 : pc.outputs.length = numTypes)
    (h3 : other.inputs.length = numTypes) (h4 : other.outputs.length = numTypes)
    (hin : ∀ i, i < numTypes → pc.inputs.getD i 0 = other.inputs.getD i 0)
    (hout : ∀ i, i < numTypes → pc.outputs.getD i 0 = other.outputs.getD i 0) :
    pc = other := by
  cases pc with
  | mk pin pout =>
    cases other with
    | mk qin qout =>
      simp only at h1 h2 h3 h4 hin hout
      congr 1
      · refine List.ext_getElem (h1.trans h3.symm) fun i hi hi2 => ?_
        have := hin i (h1 ▸ hi)
        rwa [List.getD_eq_getElem, List.getD_eq_getElem] at this
      · refine List.ext_getElem (h2.trans h4.symm) fun i hi hi2 => ?_
        have := hout i (h2 ▸ hi)
        rwa [List.getD_eq_getElem, List.getD_eq_getElem] at this

end PortCountLemmas

/-- The global index at which the port block of type `i` starts: the total
number of ports emitted for the types before `i`.  Written from the claim's
words ("assigning consecutive global indices starting at 0" / "the next
unused global index") to compare against `PortCount::getPorts`. -/
def typeOffset (pc : PortCount) (i : Nat) : Nat :=
  ((List.range i).map fun k =>
    (pc.inputs.getD k 0).toNat + (pc.outputs.getD k 0).toNat).sum

/-- The port list as the claim describes it: the port types in enumeration
order; for each type all inputs (channel `0 ..< count`), then all outputs;
global indices consecutive from 0 (`typeOffset` arithmetic); symbols
`<slug>_in_<n>` / `<slug>_out_<n>` and names `<Name> In <n>` / `<Name> Out
<n>` with 1-based `n`.  Written from the claim's words, to be compared with
`PortCount.getPorts` (which embeds the source loop). -/
def portsSpec (numTypes : Nat) (slug tname : Nat → String) (pc : PortCount) :
    List Port :=
  ((List.range numTypes).map fun i =>
    ((List.range (pc.inputs.getD i 0).toNat).map fun j =>
      ⟨i, typeOffset pc i + j, j, slug i ++ "_in_" ++ toString (j + 1),
        tname i ++ " In " ++ toString (j + 1), true⟩)
    ++ ((List.range (pc.outputs.getD i 0).toNat).map fun j =>
      ⟨i, typeOffset pc i + (pc.inputs.getD i 0).toNat + j, j,
        slug i ++ "_out_" ++ toString (j + 1),
        tname i ++ " Out " ++ toString (j + 1), false⟩)).flatten

section GetPortsLemmas

lemma foldl_build (f : Nat → Nat → Port) :
    ∀ (c : Nat) (ps : List Port) (n : Nat),
    (List.range c).foldl
      (fun (a : List Port × Nat) j => (a.1 ++ [f j a.2], a.2 + 1)) (ps, n)
      = (ps ++ (List.range c).map (fun j => f j (n + j)), n + c) := by
  intro c
  induction c with
  | zero => simp
  | succ c ih =>
    intro ps n
    rw [List.range_succ, List.foldl_append, ih, List.foldl_cons, List.foldl_nil]
    simp [List.map_append, List.append_assoc, Nat.add_assoc]

lemma foldl_build_in (slug tname : Nat → String) (i : Nat) :
    ∀ (c : Nat) (ps : List Port) (n : Nat),
    (List.range c).foldl
      (fun (a : List Port × Nat) j =>
        (a.1 ++ [⟨i, a.2, j, slug i ++ "_in_" ++ toString (j + 1),
                  tname i ++ " In " ++ toString (j + 1), true⟩], a.2 + 1)) (ps, n)
      = (ps ++ (List.range c).map (fun j =>
          ⟨i, n + j, j, slug i ++ "_in_" ++ toString (j + 1),
            tname i ++ " In " ++ toString (j + 1), true⟩), n + c) :=
  fun c ps n =>
    foldl_build
      (fun j m => ⟨i, m, j, slug i ++ "_in_" ++ toString (j + 1),
        tname i ++ " In " ++ toString (j + 1), true⟩) c ps n

lemma foldl_build_out (slug tname : Nat → String) (i : Nat) :
    ∀ (c : Nat) (ps : List Port) (n : Nat),
    (List.range c).foldl
      (fun (a : List Port × Nat) j =>
        (a.1 ++ [⟨i, a.2, j, slug i ++ "_out_" ++ toString (j + 1),
                  tname i ++ " Out " ++ toString (j + 1), false⟩], a.2 + 1)) (ps, n)
      = (ps ++ (List.range c).map (fun j =>
          ⟨i, n + j, j, slug i ++ "_out_" ++ toString (j + 1),
            tname i ++ " Out " ++ toString (j + 1), false⟩), n + c) :=
  fun c ps n =>
    foldl_build
      (fun j m => ⟨i, m, j, slug i ++ "_out_" ++ toString (j + 1),
        tname i ++ " Out " ++ toString (j + 1), false⟩) c ps n

lemma portsSpec_succ (numTypes : Nat) (slug tname : Nat → String) (pc : PortCount) :
    portsSpec (numTypes + 1) slug tname pc
      = portsSpec numTypes slug tname pc
        ++ (((List.range (pc.inputs.getD numTypes 0).toNat).map fun j =>
              ⟨numTypes, typeOffset pc numTypes + j, j,
                slug numTypes ++ "_in_" ++ toString (j + 1),
                tname numTypes ++ " In " ++ toString (j + 1), true⟩)
          ++ ((List.range (pc.outputs.getD numTypes 0).toNat).map fun j =>
              ⟨numTypes, typeOffset pc numTypes + (pc.inputs.getD numTypes 0).toNat + j, j,
                slug numTypes ++ "_out_" ++ toString (j + 1),
                tname numTypes ++ " Out " ++ toString (j + 1), false⟩)) := by
  simp [portsSpec, List.range_succ]

lemma typeOffset_succ (pc : PortCount) (numTypes : Nat) :
    typeOffset pc (numTypes + 1)
      = typeOffset pc numTypes
        + ((pc.inputs.getD numTypes 0).toNat + (pc.outputs.getD numTypes 0).toNat) := by
  simp [typeOffset, List.range_succ]

lemma getPorts_fold (slug tname : Nat → String) (pc : PortCount) :
    ∀ numTypes : Nat,
    ((List.range numTypes).foldl
      (fun (acc : List Port × Nat) i =>
        let acc1 := (List.range (pc.inputs.getD i 0).toNat).foldl
          (fun (a : List Port × Nat) j =>
            (a.1 ++ [⟨i, a.2, j, slug i ++ "_in_" ++ toString (j + 1),
                      tname i ++ " In " ++ toString (j + 1), true⟩], a.2 + 1))
          acc
        (List.range (pc.outputs.getD i 0).toNat).foldl
          (fun (a : List Port × Nat) j =>
            (a.1 ++ [⟨i, a.2, j, slug i ++ "_out_" ++ toString (j + 1),
                      tname i ++ " Out " ++ toString (j + 1), false⟩], a.2 + 1))
          acc1)
      ([], 0))
      = (portsSpec numTypes slug tname pc, typeOffset pc numTypes) := by
  intro numTypes
  induction numTypes with
  | zero => simp [portsSpec, typeOffset]
  | succ n ih =>
    rw [List.range_succ, List.foldl_append, ih, List.foldl_cons, List.foldl_nil]
    simp only
    rw [foldl_build_in slug tname n, foldl_build_out slug tname n,
      portsSpec_succ, typeOffset_succ]
    simp [List.append_assoc, Nat.add_assoc]

lemma portsSpec_map_index (slug tname : Nat → String) (pc : PortCount) :
    ∀ numTypes : Nat,
    (portsSpec numTypes slug tname pc).map (fun q => q.index)
      = List.range (typeOffset pc numTypes) := by
  intro numTypes
  induction numTypes with
  | zero => simp [portsSpec, typeOffset]
  | succ n ih =>
    rw [portsSpec_succ, List.map_append, ih, typeOffset_succ, List.range_add,
      List.map_append, List.map_map, List.range_add, List.map_append,
      List.map_map, List.map_map]
    simp only [Nat.add_assoc]
    congr 1

lemma portsSpec_length (slug tname : Nat → String) (pc : PortCount) (numTypes : Nat) :
    (portsSpec numTypes slug tname pc).length = typeOffset pc numTypes := by
  have h := portsSpec_map_index slug tname pc numTypes
  have := congrArg List.length h
  simpa using this

end GetPortsLemmas

/-- C6: the source's `PortCount::getPorts` loop equals the claim's
description (`portsSpec`): port types in enumeration order, all inputs then
all outputs per type, symbols `<slug>_in_<n>` / `<slug>_out_<n>` and display
names `<Name> In <n>` / `<Name> Out <n>` with 1-based `n`; and the emitted
global indices are exactly `0, 1, 2, ...` in order (consecutive from 0). -/
theorem c6_getPorts_spec (numTypes : Nat) (slug tname : Nat → String) (pc : PortCount) :
    PortCount.getPorts numTypes slug tname pc = portsSpec numTypes slug tname pc
    ∧ (PortCount.getPorts numTypes slug tname pc).map (fun q => q.index)
        = List.range ((PortCount.getPorts numTypes slug tname pc).length) := by
  have h : PortCount.getPorts numTypes slug tname pc = portsSpec numTypes slug tname pc := by
    rw [PortCount.getPorts, getPorts_fold slug tname pc numTypes]
  refine ⟨h, ?_⟩
  rw [h, portsSpec_map_index slug tname pc numTypes, portsSpec_length slug tname pc numTypes]

/-- C8: `PortCount::with (t, c, d)` returns a copy whose `(t, d)` slot is `c`
and whose every other slot agrees with the original (the original record is
not written to — the functional embedding returns the modified copy and
leaves `pc` untouched by construction), and `operator==` holds exactly when
the two records agree on every per-type input and output count, i.e. it is
structural equality of well-formed records. -/
theorem c8_with_frame_and_beq (numTypes : Nat) (pc other : PortCount)
    (t : Nat) (c : Int) (d : Bool)
    (h1 : pc.inputs.length = numTypes) (h2 : pc.outputs.length = numTypes)
    (h3 : other.inputs.length = numTypes) (h4 : other.outputs.length = numTypes)
    (ht : t < numTypes) :
    (∀ t2 d2, t2 < numTypes →
      (pc.withCount t c d).get t2 d2 =
        if t2 = t ∧ d2 = d then c else pc.get t2 d2)
    ∧ (PortCount.beq numTypes pc other = true ↔ pc = other) := by
  constructor
  · intro t2 d2 ht2
    have hlin : t < pc.inputs.length := h1 ▸ ht
    have hlout : t < pc.outputs.length := h2 ▸ ht
    rcases eq_or_ne t2 t with rfl | hne
    · cases d <;> cases d2 <;>
        simp [PortCount.withCount, PortCount.set, PortCount.get,
          List.getElem?_set_self, hlin, hlout]
    · cases d <;> cases d2 <;>
        simp [PortCount.withCount, PortCount.set, PortCount.get,
          List.getElem?_set_ne (Ne.symm hne), hne]
  · constructor
    · intro hb
      rw [PortCount.beq, List.all_eq_true] at hb
      refine portcount_ext numTypes pc other h1 h2 h3 h4 ?_ ?_
      · intro i hi
        have h := hb i (List.mem_range.mpr hi)
        simp only [Bool.and_eq_true, beq_iff_eq] at h
        exact h.1
      · intro i hi
        have h := hb i (List.mem_range.mpr hi)
        simp only [Bool.and_eq_true, beq_iff_eq] at h
        exact h.2
    · rintro rfl
      rw [PortCount.beq, List.all_eq_true]
      intro i _
      simp

/-- Witness for C8 at a concrete record: two port types, counts
`inputs = [1, 2]`, `outputs = [0, 3]`, updating slot `(1, input)` to `5`. -/
theorem c8_witness :
    (∀ t2 d2, t2 < 2 →
      (PortCount.withCount ⟨[1, 2], [0, 3]⟩ 1 5 true).get t2 d2 =
        if t2 = 1 ∧ d2 = true then 5
        else (PortCount.mk [1, 2] [0, 3]).get t2 d2)
    ∧ (PortCount.beq 2 ⟨[1, 2], [0, 3]⟩ ⟨[1, 2], [0, 3]⟩ = true ↔
        (PortCount.mk [1, 2] [0, 3]) = ⟨[1, 2], [0, 3]⟩) :=
  c8_with_frame_and_beq 2 ⟨[1, 2], [0, 3]⟩ ⟨[1, 2], [0, 3]⟩ 1 5 true
    (by decide) (by decide) (by decide) (by decide) (by decide)

section UIDLemmas

open GraphController

lemma callUIDs_length (s : ControllerState) : ∀ k, (callUIDs s k).length = k := by
  intro k
  induction k generalizing s with
  | zero => rfl
  | succ k ih => simp [callUIDs, ih]

lemma callUIDs_getD (s : ControllerState) :
    ∀ k i, i < k → (callUIDs s k).getD i 0 = (s.lastUID + i + 1) % U32 := by
  intro k
  induction k generalizing s with
  | zero => intro i h; omega
  | succ k ih =>
    intro i hi
    cases i with
    | zero => simp [callUIDs, getNextUID]
    | succ i =>
      have hik : i < k := by omega
      have step := ih { s with lastUID := (s.lastUID + 1) % U32 } i hik
      simp only [callUIDs, getNextUID, List.getD_cons_succ]
      rw [step]
      simp only
      have h1 : (s.lastUID + 1) % U32 + i + 1 = (s.lastUID + 1) % U32 + (i + 1) := by
        omega
      rw [h1, Nat.mod_add_mod]
      have h2 : s.lastUID + 1 + (i + 1) = s.lastUID + (i + 1) + 1 := by omega
      rw [h2]

end UIDLemmas

/-- C9: on a freshly constructed controller, the k-th `getNextUID` call
returns exactly `k` (1-based), and in particular never returns `0`, for
every `k` up to `2^32 - 1`, i.e. before the 32-bit counter wraps; so
controller-allocated node IDs are never zero. -/
theorem c9_uid_kth_call (N k : Nat) (h1 : 1 ≤ k) (h2 : k ≤ N)
    (h3 : k ≤ 2 ^ 32 - 1) :
    (GraphController.callUIDs GraphController.initController N).getD (k - 1) 0 = k
    ∧ (GraphController.callUIDs GraphController.initController N).getD (k - 1) 0 ≠ 0 := by
  have hpow : (2 : Nat) ^ 32 = 4294967296 := by norm_num
  rw [hpow] at h3
  have hk : k - 1 < N := by omega
  have h := callUIDs_getD GraphController.initController N (k - 1) hk
  have hlt : k < GraphController.U32 := by
    rw [GraphController.U32, hpow]
    omega
  rw [h]
  simp only [GraphController.initController]
  have he : 0 + (k - 1) + 1 = k := by omega
  rw [he, Nat.mod_eq_of_lt hlt]
  exact ⟨rfl, by omega⟩

/-- Witness for C9: the third of five calls on a fresh controller returns 3. -/
theorem c9_witness :
    (GraphController.callUIDs GraphController.initController 5).getD (3 - 1) 0 = 3
    ∧ (GraphController.callUIDs GraphController.initController 5).getD (3 - 1) 0 ≠ 0 :=
  c9_uid_kth_call 5 3 (by norm_num) (by norm_num) (by norm_num)

/-- C5 counterexample: the claim quantifies over every `N`, but the `uint32`
counter wraps: among the first `2^32` calls on one fresh controller, call
number `2^32 - 1` returns `2^32 - 1` while the next call returns `0`, so the
values are not strictly increasing (and one more call repeats the value `1`
of the first call). -/
theorem c5_counterexample :
    (GraphController.callUIDs GraphController.initController (2 ^ 32)).getD (2 ^ 32 - 2) 0
      = 2 ^ 32 - 1
    ∧ (GraphController.callUIDs GraphController.initController (2 ^ 32)).getD (2 ^ 32 - 1) 0
      = 0
    ∧ ¬ ((GraphController.callUIDs GraphController.initController (2 ^ 32)).getD (2 ^ 32 - 2) 0
        < (GraphController.callUIDs GraphController.initController (2 ^ 32)).getD (2 ^ 32 - 1) 0) := by
  have hpow : (2 : Nat) ^ 32 = 4294967296 := by norm_num
  have ha := callUIDs_getD GraphController.initController (2 ^ 32) (2 ^ 32 - 2)
    (by rw [hpow]; omega)
  have hb := callUIDs_getD GraphController.initController (2 ^ 32) (2 ^ 32 - 1)
    (by rw [hpow]; omega)
  rw [ha, hb]
  simp only [GraphController.initController, GraphController.U32]
  have e1 : 0 + (2 ^ 32 - 2) + 1 = 2 ^ 32 - 1 := by rw [hpow]
  have e2 : 0 + (2 ^ 32 - 1) + 1 = 2 ^ 32 := by rw [hpow]
  rw [e1, e2, Nat.mod_self, Nat.mod_eq_of_lt (by rw [hpow]; omega)]
  rw [hpow]
  omega

/-- C5 as amended: for every `N ≤ 2^32 - 1` (i.e. before the 32-bit counter
wraps), `N` calls of `getNextUID` on one freshly constructed controller
yield strictly increasing — hence pairwise distinct — values. -/
theorem c5_uid_strictly_increasing (N i j : Nat) (hN : N ≤ 2 ^ 32 - 1)
    (hij : i < j) (hj : j < N) :
    (GraphController.callUIDs GraphController.initController N).getD i 0
      < (GraphController.callUIDs GraphController.initController N).getD j 0
    ∧ (GraphController.callUIDs GraphController.initController N).getD i 0
      ≠ (GraphController.callUIDs GraphController.initController N).getD j 0 := by
  have hpow : (2 : Nat) ^ 32 = 4294967296 := by norm_num
  rw [hpow] at hN
  have ha := callUIDs_getD GraphController.initController N i (by omega)
  have hb := callUIDs_getD GraphController.initController N j (by omega)
  rw [ha, hb]
  simp only [GraphController.initController, GraphController.U32]
  have hiw : 0 + i + 1 < 2 ^ 32 := by rw [hpow]; omega
  have hjw : 0 + j + 1 < 2 ^ 32 := by rw [hpow]; omega
  rw [Nat.mod_eq_of_lt hiw, Nat.mod_eq_of_lt hjw]
  omega

/-- Witness for C5's amended theorem: with three calls, the first value is
below the third. -/
theorem c5_witness :
    (GraphController.callUIDs GraphController.initController 3).getD 0 0
      < (GraphController.callUIDs GraphController.initController 3).getD 2 0
    ∧ (GraphController.callUIDs GraphController.initController 3).getD 0 0
      ≠ (GraphController.callUIDs GraphController.initController 3).getD 2 0 :=
  c5_uid_strictly_increasing 3 0 2 (by norm_num) (by norm_num) (by norm_num)

/-- C3: `addFilter` with a null description, or whose filter creation fails
(factory failure or processor rejection), returns the invalid-ID sentinel,
leaves the processor, the "nodes" collection and the "arcs" collection
unchanged, publishes no change notification, and reports exactly one
user-facing error through the external notifier. -/
theorem c3_addFilter_failure (s : ControllerState) (d : Option PluginDescription)
    (x y : Int) (nid : Nat)
    (h : d = none
      ∨ ∀ pd, d = some pd → GraphController.createFilter s.processor pd x y nid = none) :
    (GraphController.addFilter s d x y nid).1 = KV_INVALID_NODE
    ∧ (GraphController.addFilter s d x y nid).2.processor = s.processor
    ∧ (GraphController.addFilter s d x y nid).2.nodes = s.nodes
    ∧ (GraphController.addFilter s d x y nid).2.arcs = s.arcs
    ∧ (GraphController.addFilter s d x y nid).2.changes = s.changes
    ∧ (GraphController.addFilter s d x y nid).2.alerts = s.alerts + 1 := by
  cases d with
  | none => simp [GraphController.addFilter]
  | some pd =>
    rcases h with h | h
    · exact absurd h (by simp)
    · have hc := h pd rfl
      simp [GraphController.addFilter, hc]

/-- Witness for C3: a null description on the fresh controller. -/
theorem c3_witness :
    (GraphController.addFilter GraphController.initController none 0 0 5).1 = KV_INVALID_NODE
    ∧ (GraphController.addFilter GraphController.initController none 0 0 5).2.processor
        = GraphController.initController.processor
    ∧ (GraphController.addFilter GraphController.initController none 0 0 5).2.nodes
        = GraphController.initController.nodes
    ∧ (GraphController.addFilter GraphController.initController none 0 0 5).2.arcs
        = GraphController.initController.arcs
    ∧ (GraphController.addFilter GraphController.initController none 0 0 5).2.changes
        = GraphController.initController.changes
    ∧ (GraphController.addFilter GraphController.initController none 0 0 5).2.alerts
        = GraphController.initController.alerts + 1 :=
  c3_addFilter_failure GraphController.initController none 0 0 5 (Or.inl rfl)

/-- C4: `removeFilter` on an ID not registered in the processor is a total
no-op — the state (persisted model, processor, notification and alert
counters) is returned unchanged — and the internally observed
`processor.removeNode` result (surfaced by the embedding; the C++ function
itself returns `void`) is `false`, indicating absence. -/
theorem c4_removeFilter_absent (s : ControllerState) (uid : Nat)
    (h : ∀ n ∈ s.processor.nodes, n.nodeId ≠ uid) :
    GraphController.removeFilter s uid = (false, s) := by
  have hany : (s.processor.nodes.any fun n => n.nodeId == uid) = false := by
    rw [List.any_eq_false]
    intro n hn
    simpa using h n hn
  rw [GraphController.removeFilter]
  rw [GraphProcessor.removeNode, if_neg (by rw [hany]; simp)]

/-- Witness for C4: removing ID 5 from the fresh (empty) controller. -/
theorem c4_witness :
    GraphController.removeFilter GraphController.initController 5
      = (false, GraphController.initController) :=
  c4_removeFilter_absent GraphController.initController 5 (by intro n hn; cases hn)

/-- C7: `savePluginStates` keeps the "nodes" collection's length, and for
each entry writes the text encoding of the pulled plugin state into the
`state` property exactly when that pulled state is non-empty; an entry whose
pulled state is empty (in particular one with no live instance) is left
exactly as it was. -/
theorem c7_savePluginStates (encode : List Nat → String) (s : ControllerState)
    (e0 : NodeEntry) (i : Nat) (hi : i < s.nodes.length) :
    (GraphController.savePluginStates encode s).nodes.length = s.nodes.length
    ∧ (GraphController.pulledState (s.nodes.getD i e0) ≠ [] →
        (GraphController.savePluginStates encode s).nodes.getD i e0
          = { s.nodes.getD i e0 with
              stateProp := some (encode (GraphController.pulledState (s.nodes.getD i e0))) })
    ∧ (GraphController.pulledState (s.nodes.getD i e0) = [] →
        (GraphController.savePluginStates encode s).nodes.getD i e0 = s.nodes.getD i e0) := by
  have hlen : (GraphController.savePluginStates encode s).nodes.length = s.nodes.length := by
    simp [GraphController.savePluginStates]
  have hmap : (GraphController.savePluginStates encode s).nodes.getD i e0
      = if (GraphController.pulledState (s.nodes.getD i e0)).length > 0 then
          { s.nodes.getD i e0 with
            stateProp := some (encode (GraphController.pulledState (s.nodes.getD i e0))) }
        else s.nodes.getD i e0 := by
    rw [List.getD_eq_getElem _ _ (hlen ▸ hi), List.getD_eq_getElem _ _ hi]
    simp [GraphController.savePluginStates]
  refine ⟨hlen, ?_, ?_⟩
  · intro hne
    have hpos : (GraphController.pulledState (s.nodes.getD i e0)).length > 0 :=
      List.length_pos.mpr hne
    rw [hmap, if_pos hpos]
  · intro heq
    rw [hmap, if_neg (by rw [heq]; simp)]

/-- Witness for C7: a model with one stateful entry; the encoding of `[1, 2]`
is written into its `state` property. -/
theorem c7_witness :
    (GraphController.savePluginStates (fun l => toString l)
      { GraphController.initController with
        nodes := [⟨7, ⟨true, [1, 2], []⟩, none,
          some ⟨7, some ⟨[1, 2], []⟩, [], 1, 2⟩⟩] }).nodes.length
      = ([⟨7, PluginDescription.mk true [1, 2] [], none,
          some ⟨7, some ⟨[1, 2], []⟩, [], 1, 2⟩⟩] : List NodeEntry).length
    ∧ (GraphController.pulledState
        (([⟨7, ⟨true, [1, 2], []⟩, none,
            some ⟨7, some ⟨[1, 2], []⟩, [], 1, 2⟩⟩] : List NodeEntry).getD 0
          ⟨0, ⟨false, [], []⟩, none, none⟩) ≠ [] →
        (GraphController.savePluginStates (fun l => toString l)
          { GraphController.initController with
            nodes := [⟨7, ⟨true, [1, 2], []⟩, none,
              some ⟨7, some ⟨[1, 2], []⟩, [], 1, 2⟩⟩] }).nodes.getD 0
            ⟨0, ⟨false, [], []⟩, none, none⟩
          = { ([⟨7, PluginDescription.mk true [1, 2] [], none,
                some ⟨7, some ⟨[1, 2], []⟩, [], 1, 2⟩⟩] : List NodeEntry).getD 0
                ⟨0, ⟨false, [], []⟩, none, none⟩ with
              stateProp := some (toString (GraphController.pulledState
                (([⟨7, PluginDescription.mk true [1, 2] [], none,
                    some ⟨7, some ⟨[1, 2], []⟩, [], 1, 2⟩⟩] : List NodeEntry).getD 0
                  ⟨0, ⟨false, [], []⟩, none, none⟩))) })
    ∧ (GraphController.pulledState
        (([⟨7, ⟨true, [1, 2], []⟩, none,
            some ⟨7, some ⟨[1, 2], []⟩, [], 1, 2⟩⟩] : List NodeEntry).getD 0
          ⟨0, ⟨false, [], []⟩, none, none⟩) = [] →
        (GraphController.savePluginStates (fun l => toString l)
          { GraphController.initController with
            nodes := [⟨7, ⟨true, [1, 2], []⟩, none,
              some ⟨7, some ⟨[1, 2], []⟩, [], 1, 2⟩⟩] }).nodes.getD 0
            ⟨0, ⟨false, [], []⟩, none, none⟩
          = ([⟨7, PluginDescription.mk true [1, 2] [], none,
              some ⟨7, some ⟨[1, 2], []⟩, [], 1, 2⟩⟩] : List NodeEntry).getD 0
            ⟨0, ⟨false, [], []⟩, none, none⟩) :=
  c7_savePluginStates (fun l => toString l)
    { GraphController.initController with
      nodes := [⟨7, ⟨true, [1, 2], []⟩, none,
        some ⟨7, some ⟨[1, 2], []⟩, [], 1, 2⟩⟩] }
    ⟨0, ⟨false, [], []⟩, none, none⟩ 0 (by decide)

section AddFilterLemmas

lemma map_keep (l : List GraphNode) (f : GraphNode → GraphNode)
    (h : ∀ m ∈ l, f m = m) : l.map f = l := by
  induction l with
  | nil => rfl
  | cons a t ih =>
    rw [List.map_cons, h a (List.mem_cons_self a t),
      ih fun m hm => h m (List.mem_cons_of_mem a hm)]

lemma updateNode_fresh_append (p : GraphProcessor) (node0 node1 : GraphNode)
    (hid : node0.nodeId = node1.nodeId)
    (h : ∀ m ∈ p.nodes, m.nodeId ≠ node1.nodeId) :
    GraphProcessor.updateNode { p with nodes := p.nodes ++ [node0] } node1
      = { p with nodes := p.nodes ++ [node1] } := by
  simp only [GraphProcessor.updateNode, List.map_append]
  congr 1
  rw [map_keep p.nodes _ fun m hm => by simp [h m hm]]
  simp [hid]

lemma find?_last (l : List GraphNode) (nid : Nat) (node : GraphNode)
    (h : ∀ m ∈ l, m.nodeId ≠ nid) (hn : node.nodeId = nid) :
    ((l ++ [node]).find? fun m => m.nodeId == nid) = some node := by
  induction l with
  | nil => simp [List.find?, hn]
  | cons a t ih =>
    have ha : (a.nodeId == nid) = false := by
      simpa using h a (List.mem_cons_self a t)
    rw [List.cons_append, List.find?_cons_of_neg _ (by simp [ha])]
    exact ih fun m hm => h m (List.mem_cons_of_mem a hm)

lemma addNode_success (p : GraphProcessor) (inst : PluginInstance) (nid : Nat)
    (node : GraphNode) (q : GraphProcessor)
    (h : p.addNode inst nid = some (node, q)) :
    node = ⟨nid, some inst, inst.ports, 0, 0⟩
    ∧ q = { p with nodes := p.nodes ++ [node] }
    ∧ nid ≠ KV_INVALID_NODE
    ∧ ∀ m ∈ p.nodes, m.nodeId ≠ nid := by
  rw [GraphProcessor.addNode] at h
  by_cases h0 : nid = KV_INVALID_NODE
  · rw [if_pos h0] at h
    cases h
  · rw [if_neg h0] at h
    by_cases h1 : (p.nodes.any fun n => n.nodeId == nid) = true
    · rw [if_pos h1] at h
      cases h
    · rw [if_neg h1] at h
      have hfresh : ∀ m ∈ p.nodes, m.nodeId ≠ nid := by
        intro m hm
        have := (List.any_eq_false.mp (Bool.not_eq_true _ ▸ h1)) m hm
        simpa using this
      simp only [Option.some.injEq, Prod.mk.injEq] at h
      exact ⟨h.1.symm, by rw [← h.2, ← h.1], h0, hfresh⟩

lemma createFilter_success (p : GraphProcessor) (d : PluginDescription)
    (x y : Int) (nid : Nat) (node : GraphNode) (q : GraphProcessor)
    (h : GraphController.createFilter p d x y nid = some (node, q)) :
    node.nodeId = nid
    ∧ q = { p with nodes := p.nodes ++ [node] }
    ∧ nid ≠ KV_INVALID_NODE
    ∧ ∀ m ∈ p.nodes, m.nodeId ≠ nid := by
  rw [GraphController.createFilter] at h
  cases hca : createAudioPlugin d with
  | none =>
    rw [hca] at h
    cases h
  | some inst =>
    rw [hca] at h
    obtain ⟨hnode, hq, h0, hfresh⟩ := addNode_success p inst nid node q h
    exact ⟨by rw [hnode], hq, h0, hfresh⟩

end AddFilterLemmas

/-- C10: when `addFilter` succeeds, the ID it returns is the `nodeId` field
read back from the Graph Node actually created and registered in the
processor — the node retrievable under that ID — and the entry appended to
the persisted "nodes" collection carries the same ID.  (The source
overwrites its `nodeId` argument with `node->nodeId` before returning; the
processor, not the caller, has the last word on the registered ID.) -/
theorem c10_addFilter_returns_registered_id (s : ControllerState)
    (d : PluginDescription) (x y : Int) (nid : Nat)
    (h : (GraphController.addFilter s (some d) x y nid).1 ≠ KV_INVALID_NODE) :
    ∃ n : GraphNode,
      GraphProcessor.getNodeForId (GraphController.addFilter s (some d) x y nid).2.processor
          (GraphController.addFilter s (some d) x y nid).1 = some n
      ∧ n.nodeId = (GraphController.addFilter s (some d) x y nid).1
      ∧ ((GraphController.addFilter s (some d) x y nid).2.nodes.map fun e => e.id)
          = (s.nodes.map fun e => e.id)
            ++ [(GraphController.addFilter s (some d) x y nid).1] := by
  cases cf : GraphController.createFilter s.processor d x y nid with
  | none =>
    rw [GraphController.addFilter] at h
    simp only [cf] at h
    exact absurd rfl h
  | some r =>
    obtain ⟨node, proc⟩ := r
    obtain ⟨hid, hq, h0, hfresh⟩ := createFilter_success s.processor d x y nid node proc cf
    have haf : GraphController.addFilter s (some d) x y nid
        = (node.nodeId,
          { s with
            processor := proc.updateNode { node with x := x, y := y },
            nodes := s.nodes ++ [⟨node.nodeId, d, none, some { node with x := x, y := y }⟩],
            changes := s.changes + 1 }) := by
      rw [GraphController.addFilter]
      simp only [cf]
    refine ⟨{ node with x := x, y := y }, ?_, ?_, ?_⟩
    · rw [haf]
      simp only
      rw [hq, updateNode_fresh_append s.processor node { node with x := x, y := y } rfl
        (by simpa [hid] using hfresh)]
      rw [GraphProcessor.getNodeForId]
      simp only
      exact find?_last s.processor.nodes node.nodeId { node with x := x, y := y }
        (by simpa [hid] using hfresh) rfl
    · rw [haf]
    · rw [haf]
      simp

/-- Witness for C10: adding an instantiable plugin with requested ID 7 on the
fresh controller; the returned ID is the registered node's own `nodeId`. -/
theorem c10_witness :
    ∃ n : GraphNode,
      GraphProcessor.getNodeForId
          (GraphController.addFilter GraphController.initController
            (some ⟨true, [1], []⟩) 1 2 7).2.processor
          (GraphController.addFilter GraphController.initController
            (some ⟨true, [1], []⟩) 1 2 7).1 = some n
      ∧ n.nodeId = (GraphController.addFilter GraphController.initController
            (some ⟨true, [1], []⟩) 1 2 7).1
      ∧ ((GraphController.addFilter GraphController.initController
            (some ⟨true, [1], []⟩) 1 2 7).2.nodes.map fun e => e.id)
          = (GraphController.initController.nodes.map fun e => e.id)
            ++ [(GraphController.addFilter GraphController.initController
                  (some ⟨true, [1], []⟩) 1 2 7).1] :=
  c10_addFilter_returns_registered_id GraphController.initController
    ⟨true, [1], []⟩ 1 2 7 (by decide)

section SyncLemmas

lemma map_filter_push {α : Type} (f : α → Nat) (pb : Nat → Bool) (l : List α) :
    List.map f (List.filter (fun a => pb (f a)) l) = List.filter pb (List.map f l) := by
  induction l with
  | nil => rfl
  | cons a t ih =>
    by_cases hp : pb (f a) = true
    · simp only [List.filter_cons, List.map_cons, hp, if_true, ih]
    · simp only [List.filter_cons, List.map_cons, hp, if_false, ih]
      simp only [Bool.not_eq_true] at hp
      simp [hp, ih]

/-- The removal loop of `removeFilter` behaves like a filter as long as at
most one entry (from position `i` on) carries the searched ID — the
controller's reachable states guarantee that, since model IDs mirror the
processor's and those are unique. -/
lemma removeNodeEntries_eq (uid : Nat) :
    ∀ (fuel : Nat) (ns : List NodeEntry) (i : Nat), ns.length - i ≤ fuel →
      (ns.drop i).countP (fun e => e.id == uid) ≤ 1 →
      GraphController.removeNodeEntries uid i ns
        = ns.take i ++ (ns.drop i).filter fun e => !(e.id == uid) := by
  intro fuel
  induction fuel with
  | zero =>
    intro ns i hf _
    have hle : ns.length ≤ i := by omega
    rw [GraphController.removeNodeEntries, dif_neg (by omega),
      List.take_of_length_le hle, List.drop_of_length_le hle]
    simp
  | succ fuel ih =>
    intro ns i hf hc
    rw [GraphController.removeNodeEntries]
    by_cases h : i < ns.length
    · rw [dif_pos h]
      have hdrop : ns.drop i = ns.get ⟨i, h⟩ :: ns.drop (i + 1) := by
        rw [List.get_eq_getElem]
        exact List.drop_eq_getElem_cons h
      by_cases hm : ((ns.get ⟨i, h⟩).id == uid) = true
      · rw [if_pos hm]
        rw [hdrop] at hc
        rw [List.countP_cons_of_pos (fun e => e.id == uid) (ns.drop (i + 1)) hm] at hc
        have hc1 : (ns.drop (i + 1)).countP (fun e => e.id == uid) = 0 := by omega
        have hera : ns.eraseIdx i = ns.take i ++ ns.drop (i + 1) :=
          List.eraseIdx_eq_take_drop_succ ns i
        have hlen_take : (ns.take i).length = i := by
          rw [List.length_take]
          omega
        have herad : (ns.eraseIdx i).drop (i + 1) = ns.drop (i + 2) := by
          have h1 : (List.take i ns ++ List.drop (i + 1) ns).drop (i + 1)
              = (List.drop (i + 1) ns).drop 1 := by
            have he : i + 1 = (List.take i ns).length + 1 := by omega
            conv_lhs => rw [he, List.drop_append]
            rw [← he]
          rw [hera, h1, List.drop_drop]
        have hnomatch : ∀ e ∈ (ns.eraseIdx i).drop (i + 1), ¬ (e.id == uid) = true := by
          intro e he
          rw [herad] at he
          have he' : e ∈ ns.drop (i + 1) := by
            have hd : ns.drop (i + 2) = List.drop 1 (ns.drop (i + 1)) := by
              rw [List.drop_drop]
            exact List.drop_subset 1 _ (hd ▸ he)
          exact List.countP_eq_zero.mp hc1 e he'
        rw [ih (ns.eraseIdx i) (i + 1)
          (by rw [List.length_eraseIdx_of_lt h]; omega)
          (by rw [List.countP_eq_zero.mpr hnomatch]; omega)]
        have hfe1 : ((ns.eraseIdx i).drop (i + 1)).filter (fun e => !(e.id == uid))
            = (ns.eraseIdx i).drop (i + 1) :=
          List.filter_eq_self.mpr fun e he => by
            have hb := hnomatch e he
            simp only [Bool.not_eq_true] at hb
            simp [hb]
        have hmE : (ns[i].id == uid) = true := hm
        have hfe2 : (ns.get ⟨i, h⟩ :: ns.drop (i + 1)).filter (fun e => !(e.id == uid))
            = (ns.drop (i + 1)).filter (fun e => !(e.id == uid)) :=
          List.filter_cons_of_neg (by simp [hmE])
        have hfe3 : (ns.drop (i + 1)).filter (fun e => !(e.id == uid))
            = ns.drop (i + 1) :=
          List.filter_eq_self.mpr fun e he => by
            have hb := List.countP_eq_zero.mp hc1 e he
            simp only [Bool.not_eq_true] at hb
            simp [hb]
        rw [hfe1, List.take_append_drop, hera, hdrop, hfe2, hfe3]
      · rw [if_neg hm]
        rw [hdrop] at hc
        rw [List.countP_cons_of_neg (fun e => e.id == uid) (ns.drop (i + 1)) hm] at hc
        have hmf : (ns[i].id == uid) = false := by
          have := hm
          simpa using this
        have hfe2 : (ns.get ⟨i, h⟩ :: ns.drop (i + 1)).filter (fun e => !(e.id == uid))
            = ns.get ⟨i, h⟩ :: (ns.drop (i + 1)).filter (fun e => !(e.id == uid)) :=
          List.filter_cons_of_pos (by simp [hmf])
        rw [ih ns (i + 1) (by omega) hc, hdrop, hfe2, List.take_succ,
          List.getElem?_eq_getElem h, List.append_assoc]
        rfl
    · rw [dif_neg h]
      have hle : ns.length ≤ i := by omega
      rw [List.take_of_length_le hle, List.drop_of_length_le hle]
      simp

/-- The synchronization invariant of the controller: the persisted "nodes"
collection mirrors the processor's node set by ID, position for position,
and processor IDs are unique. -/
def GraphSync (s : ControllerState) : Prop :=
  (s.nodes.map fun e => e.id) = (s.processor.nodes.map fun n => n.nodeId)
  ∧ (s.processor.nodes.map fun n => n.nodeId).Nodup

lemma graphSync_addFilter (s : ControllerState) (d : Option PluginDescription)
    (x y : Int) (nid : Nat) (h : GraphSync s) :
    GraphSync (GraphController.addFilter s d x y nid).2 := by
  cases d with
  | none => exact h
  | some pd =>
    cases cf : GraphController.createFilter s.processor pd x y nid with
    | none =>
      have haf : (GraphController.addFilter s (some pd) x y nid).2
          = { s with alerts := s.alerts + 1 } := by
        rw [GraphController.addFilter]
        simp only [cf]
      rw [haf]
      exact h
    | some r =>
      obtain ⟨node, proc⟩ := r
      obtain ⟨hid, hq, h0, hfresh⟩ := createFilter_success s.processor pd x y nid node proc cf
      have haf : (GraphController.addFilter s (some pd) x y nid).2
          = { s with
              processor := proc.updateNode { node with x := x, y := y },
              nodes := s.nodes
                ++ [⟨node.nodeId, pd, none, some { node with x := x, y := y }⟩],
              changes := s.changes + 1 } := by
        rw [GraphController.addFilter]
        simp only [cf]
      rw [haf]
      have hfresh2 : ∀ m ∈ s.processor.nodes,
          m.nodeId ≠ (GraphNode.mk node.nodeId node.inst node.ports x y).nodeId := by
        simpa [hid] using hfresh
      have hup := updateNode_fresh_append s.processor node { node with x := x, y := y }
        rfl hfresh2
      constructor
      · show (s.nodes ++ _).map _ = _
        rw [hq, hup]
        simp [h.1]
      · show ((GraphProcessor.updateNode _ _).nodes.map fun n => n.nodeId).Nodup
        rw [hq, hup]
        simp only [List.map_append, List.map_cons, List.map_nil]
        rw [List.nodup_append]
        refine ⟨h.2, List.nodup_singleton _, ?_⟩
        intro a ha hb
        simp only [List.mem_singleton] at hb
        subst hb
        obtain ⟨m, hm, hmid⟩ := List.mem_map.mp ha
        exact hfresh2 m hm hmid

lemma graphSync_removeFilter (s : ControllerState) (uid : Nat) (h : GraphSync s) :
    GraphSync (GraphController.removeFilter s uid).2 := by
  by_cases hany : (s.processor.nodes.any fun n => n.nodeId == uid) = true
  · have hrn : s.processor.removeNode uid
        = (true,
          { nodes := s.processor.nodes.filter fun n => n.nodeId != uid,
            connections := s.processor.connections.filter
              fun c => c.sourceNode != uid && c.destNode != uid }) := by
      rw [GraphProcessor.removeNode, if_pos hany]
    have hrf : (GraphController.removeFilter s uid).2
        = GraphController.processorArcsChanged
          { s with
            processor :=
              { nodes := s.processor.nodes.filter fun n => n.nodeId != uid,
                connections := s.processor.connections.filter
                  fun c => c.sourceNode != uid && c.destNode != uid },
            nodes := GraphController.removeNodeEntries uid 0 s.nodes } := by
      rw [GraphController.removeFilter, hrn]
    rw [hrf]
    have hcount : s.nodes.countP (fun e => e.id == uid) ≤ 1 := by
      have h1 : s.nodes.countP (fun e => e.id == uid)
          = (s.nodes.map fun e => e.id).countP (fun v => v == uid) := by
        rw [List.countP_map]
        rfl
      rw [h1, h.1]
      have h2 : ((s.processor.nodes.map fun n => n.nodeId).countP fun v => v == uid)
          = (s.processor.nodes.map fun n => n.nodeId).count uid := rfl
      rw [h2]
      exact List.nodup_iff_count_le_one.mp h.2 uid
    have hrm := removeNodeEntries_eq uid s.nodes.length s.nodes 0
      (by omega) (by simpa using hcount)
    simp only [List.take_zero, List.drop_zero, List.nil_append] at hrm
    constructor
    · show (GraphController.removeNodeEntries uid 0 s.nodes).map _
        = (List.filter _ s.processor.nodes).map _
      rw [hrm]
      have hl : (s.nodes.filter fun e => !(e.id == uid)).map (fun e => e.id)
          = (s.nodes.map fun e => e.id).filter fun v => !(v == uid) :=
        map_filter_push (fun e => e.id) (fun v => !(v == uid)) s.nodes
      have hr : (s.processor.nodes.filter fun n => n.nodeId != uid).map (fun n => n.nodeId)
          = (s.processor.nodes.map fun n => n.nodeId).filter fun v => !(v == uid) := by
        have : (s.processor.nodes.filter fun n => n.nodeId != uid)
            = s.processor.nodes.filter fun n => !(n.nodeId == uid) := by
          simp [bne]
        rw [this]
        exact map_filter_push (fun n => n.nodeId) (fun v => !(v == uid)) s.processor.nodes
      rw [hl, hr, h.1]
    · show ((List.filter _ s.processor.nodes).map fun n => n.nodeId).Nodup
      have hr : (s.processor.nodes.filter fun n => n.nodeId != uid).map (fun n => n.nodeId)
          = (s.processor.nodes.map fun n => n.nodeId).filter fun v => !(v == uid) := by
        have : (s.processor.nodes.filter fun n => n.nodeId != uid)
            = s.processor.nodes.filter fun n => !(n.nodeId == uid) := by
          simp [bne]
        rw [this]
        exact map_filter_push (fun n => n.nodeId) (fun v => !(v == uid)) s.processor.nodes
      rw [hr]
      exact h.2.filter _
  · have hrn : s.processor.removeNode uid = (false, s.processor) := by
      rw [GraphProcessor.removeNode, if_neg hany]
    have hrf : (GraphController.removeFilter s uid).2 = s := by
      rw [GraphController.removeFilter, hrn]
    rw [hrf]
    exact h

lemma graphSync_runOps (ops : List GraphController.GCOp) :
    ∀ s : ControllerState, GraphSync s → GraphSync (GraphController.runOps s ops) := by
  induction ops with
  | nil => exact fun s h => h
  | cons op rest ih =>
    intro s h
    cases op with
    | addF d x y nid =>
      exact ih _ (graphSync_addFilter s d x y nid h)
    | removeF uid =>
      exact ih _ (graphSync_removeFilter s uid h)

end SyncLemmas

/-- C1: after any sequence of `addFilter`/`removeFilter` calls on a freshly
constructed controller, the number of entries in the persisted model's
"nodes" collection equals the number of nodes in the Graph Processor.
(Every prefix of a call sequence is itself a sequence, so this covers the
state after each call.) -/
theorem c1_node_count_sync (ops : List GraphController.GCOp) :
    (GraphController.runOps GraphController.initController ops).nodes.length
      = (GraphController.runOps GraphController.initController ops).processor.nodes.length := by
  have h := graphSync_runOps ops GraphController.initController ⟨rfl, List.nodup_nil⟩
  have hlen := congrArg List.length h.1
  simpa using hlen

/-- Static well-formedness of a connection tuple against a node list: both
endpoints exist, the source port exists and is an output, the destination
port exists and is an input, and the port types match (the non-duplicate /
acyclicity parts of `canConnect` are stated separately). -/
def tupleOk (nodes : List GraphNode) (c : Connection) : Bool :=
  match nodes.find? (fun n => n.nodeId == c.sourceNode),
        nodes.find? (fun n => n.nodeId == c.destNode) with
  | some sn, some dn =>
    match GraphProcessor.findPort sn c.sourcePort,
          GraphProcessor.findPort dn c.destPort with
    | some op, some ip => !op.isInput && ip.isInput && (op.type == ip.type)
    | _, _ => false
  | _, _ => false

section ArcLemmas

lemma canConnect_sound (p : GraphProcessor) (s sp d dp : Nat)
    (h : p.canConnect s sp d dp = true) :
    tupleOk p.nodes ⟨s, sp, d, dp⟩ = true
    ∧ Connection.mk s sp d dp ∉ p.connections := by
  rw [GraphProcessor.canConnect] at h
  cases hsn : p.getNodeForId s with
  | none =>
    simp only [hsn] at h
    exact Bool.noConfusion h
  | some sn =>
    cases hdn : p.getNodeForId d with
    | none =>
      simp only [hsn, hdn] at h
      exact Bool.noConfusion h
    | some dn =>
      simp only [hsn, hdn] at h
      cases hop : GraphProcessor.findPort sn sp with
      | none =>
        simp only [hop] at h
        exact Bool.noConfusion h
      | some op =>
        cases hip : GraphProcessor.findPort dn dp with
        | none =>
          simp only [hop, hip] at h
          exact Bool.noConfusion h
        | some ip =>
          simp only [hop, hip, Bool.and_eq_true] at h
          obtain ⟨⟨⟨⟨h1, h2⟩, h3⟩, h4⟩, _⟩ := h
          constructor
          · rw [tupleOk]
            simp only [GraphProcessor.getNodeForId] at hsn hdn
            simp only [hsn, hdn, hop, hip]
            simp [h1, h2, h3]
          · intro hmem
            have hany : (p.connections.any
                fun c => c == Connection.mk s sp d dp) = true :=
              List.any_eq_true.mpr ⟨_, hmem, by simp⟩
            rw [hany] at h4
            simp at h4

lemma addConnection_snd (p : GraphProcessor) (a : Connection) :
    (p.addConnection a.sourceNode a.sourcePort a.destNode a.destPort).2
      = if p.canConnect a.sourceNode a.sourcePort a.destNode a.destPort
        then { p with connections := p.connections ++ [a] }
        else p := by
  rw [GraphProcessor.addConnection]
  by_cases hcc : p.canConnect a.sourceNode a.sourcePort a.destNode a.destPort = true
  · rw [if_pos hcc, if_pos hcc]
  · rw [if_neg hcc, if_neg hcc]

/-- The arc pass of `setNodeModel`, named for the lemmas below (it is
definitionally the fold the embedding of `setNodeModel` performs). -/
def applyArcs (p : GraphProcessor) (arcs : List Connection) : GraphProcessor :=
  arcs.foldl
    (fun pr a => (pr.addConnection a.sourceNode a.sourcePort a.destNode a.destPort).2) p

lemma applyArcs_nodes (arcs : List Connection) :
    ∀ p : GraphProcessor, (applyArcs p arcs).nodes = p.nodes := by
  induction arcs with
  | nil => exact fun p => rfl
  | cons a rest ih =>
    intro p
    show (applyArcs ((p.addConnection a.sourceNode a.sourcePort a.destNode a.destPort).2)
      rest).nodes = p.nodes
    rw [ih, addConnection_snd]
    by_cases hcc : p.canConnect a.sourceNode a.sourcePort a.destNode a.destPort = true
    · rw [if_pos hcc]
    · rw [if_neg hcc]

lemma applyArcs_sound (arcs : List Connection) :
    ∀ p : GraphProcessor,
      (∀ c ∈ (applyArcs p arcs).connections,
        c ∈ p.connections ∨ (c ∈ arcs ∧ tupleOk p.nodes c = true))
      ∧ (p.connections.Nodup → (applyArcs p arcs).connections.Nodup) := by
  induction arcs with
  | nil =>
    intro p
    exact ⟨fun c hc => Or.inl hc, fun h => h⟩
  | cons a rest ih =>
    intro p
    have hstep : applyArcs p (a :: rest)
        = applyArcs ((p.addConnection a.sourceNode a.sourcePort a.destNode a.destPort).2)
            rest := rfl
    rw [hstep, addConnection_snd]
    by_cases hcc : p.canConnect a.sourceNode a.sourcePort a.destNode a.destPort = true
    · rw [if_pos hcc]
      obtain ⟨hok, hnotmem⟩ := canConnect_sound p a.sourceNode a.sourcePort
        a.destNode a.destPort hcc
      have hok' : tupleOk p.nodes a = true := hok
      have hmem := (ih { p with connections := p.connections ++ [a] }).1
      have hnd := (ih { p with connections := p.connections ++ [a] }).2
      constructor
      · intro c hc
        rcases hmem c hc with hin | ⟨hr, hto⟩
        · simp only at hin
          rcases List.mem_append.mp hin with hin | hin
          · exact Or.inl hin
          · right
            refine ⟨?_, ?_⟩
            · rw [List.mem_singleton.mp hin]
              exact List.mem_cons_self a rest
            · rw [List.mem_singleton.mp hin]
              exact hok'
        · exact Or.inr ⟨List.mem_cons_of_mem a hr, hto⟩
      · intro hnodup
        refine hnd ?_
        show (p.connections ++ [a]).Nodup
        rw [List.nodup_append]
        refine ⟨hnodup, List.nodup_singleton _, ?_⟩
        intro z hz hz2
        rw [List.mem_singleton.mp hz2] at hz
        exact hnotmem (by simpa using hz)
    · rw [if_neg hcc]
      constructor
      · intro c hc
        rcases (ih p).1 c hc with hin | ⟨hr, hto⟩
        · exact Or.inl hin
        · exact Or.inr ⟨List.mem_cons_of_mem a hr, hto⟩
      · exact (ih p).2

lemma pass1_connections (decode : String → Option (List Nat))
    (entries : List NodeEntry) :
    ∀ acc : GraphProcessor × List NodeEntry, acc.1.connections = [] →
      ((entries.foldl
        (fun (acc : GraphProcessor × List NodeEntry) e =>
          match GraphController.createFilter acc.1 e.desc 0 0 e.id with
          | some (obj, proc) =>
            let obj := GraphController.restoreState decode e obj
            let proc := proc.updateNode obj
            (proc, acc.2 ++ [{ e with obj := some obj }])
          | none => (acc.1, acc.2)) acc).1).connections = [] := by
  induction entries with
  | nil => exact fun acc h => h
  | cons e rest ih =>
    intro acc hacc
    cases cf : GraphController.createFilter acc.1 e.desc 0 0 e.id with
    | none =>
      rw [List.foldl_cons]
      simp only [cf]
      exact ih acc hacc
    | some r =>
      obtain ⟨obj, proc⟩ := r
      obtain ⟨_, hq, _, _⟩ := createFilter_success acc.1 e.desc 0 0 e.id obj proc cf
      rw [List.foldl_cons]
      simp only [cf]
      refine ih _ ?_
      show ((proc.updateNode (GraphController.restoreState decode e obj)).connections) = []
      rw [GraphProcessor.updateNode]
      simp only
      rw [hq]
      exact hacc

end ArcLemmas

/-- C2 counterexample: a persisted graph with no node entries and one saved
arc tuple `(1, 0, 2, 0)`.  The claim states the tuple is inserted into the
processor's connection list regardless of `canConnect`; in fact
`setNodeModel` hands it to `processor.addConnection`, whose `canConnect`
re-validation rejects it (its endpoints do not exist), and the connection
list stays empty. -/
theorem c2_counterexample :
    Connection.mk 1 0 2 0 ∈
      (GraphController.PersistedGraph.mk [] [⟨1, 0, 2, 0⟩]).arcs
    ∧ (GraphController.setNodeModel (fun _ => none) GraphController.initController
        ⟨[], [⟨1, 0, 2, 0⟩]⟩).processor.connections = [] := by
  constructor
  · exact List.mem_singleton.mpr rfl
  · rfl

/-- C2 as amended: during `setNodeModel`, every persisted connection tuple is
re-applied through the processor's `addConnection`, which re-validates with
`canConnect`; consequently the resulting connection list contains only saved
tuples, each accepted at its insertion — in particular every resulting
connection has existing endpoints with direction- and type-compatible ports
— and contains no duplicates.  Tuples rejected by `canConnect` are skipped
(see the counterexample). -/
theorem c2_setNodeModel_revalidates (decode : String → Option (List Nat))
    (s : ControllerState) (g : GraphController.PersistedGraph) :
    (GraphController.setNodeModel decode s g).processor.connections.Nodup
    ∧ ∀ c ∈ (GraphController.setNodeModel decode s g).processor.connections,
        c ∈ g.arcs
        ∧ tupleOk (GraphController.setNodeModel decode s g).processor.nodes c = true := by
  have hsm : (GraphController.setNodeModel decode s g).processor
      = applyArcs
          (g.nodes.foldl
            (fun (acc : GraphProcessor × List NodeEntry) e =>
              match GraphController.createFilter acc.1 e.desc 0 0 e.id with
              | some (obj, proc) =>
                let obj := GraphController.restoreState decode e obj
                let proc := proc.updateNode obj
                (proc, acc.2 ++ [{ e with obj := some obj }])
              | none => (acc.1, acc.2))
            ((GraphController.clear s).processor, [])).1
          g.arcs := rfl
  set p1 := (g.nodes.foldl
    (fun (acc : GraphProcessor × List NodeEntry) e =>
      match GraphController.createFilter acc.1 e.desc 0 0 e.id with
      | some (obj, proc) =>
        let obj := GraphController.restoreState decode e obj
        let proc := proc.updateNode obj
        (proc, acc.2 ++ [{ e with obj := some obj }])
      | none => (acc.1, acc.2))
    ((GraphController.clear s).processor, [])).1 with hp1
  have hp1conn : p1.connections = [] := by
    rw [hp1]
    exact pass1_connections decode g.nodes ((GraphController.clear s).processor, []) rfl
  have hsound := applyArcs_sound g.arcs p1
  constructor
  · rw [hsm]
    exact hsound.2 (by rw [hp1conn]; exact List.nodup_nil)
  · intro c hc
    rw [hsm] at hc
    rcases hsound.1 c hc with hin | ⟨ha, hto⟩
    · rw [hp1conn] at hin
      cases hin
    · refine ⟨ha, ?_⟩
      rw [hsm, applyArcs_nodes]
      exact hto

end Element
